import Mathlib

/-!
Verification of the `xerrors` Go package (file `xerrors.go`).

The package defines a classified-error value `xError` with fields
`trace : error`, `code : int`, `message : string`, package-level helpers
`Fail`, `Failf`, `Wrap`, `Wrapf`, `WithStack`, `Cause`, and methods
`Wrap`, `Wrapf`, `WithStack`, `Error`, `Code`, `Message`, `GetError`,
`Cause` on `*xError`.  The package delegates trace capture to the
external `github.com/pkg/errors` primitive.

Embedding choices:
* Go `error` interface values are `Option Err` (`none` is the nil
  interface).  `Err` is the inductive of the error shapes that can occur:
  a plain error carrying its `Error()` text, the `withStack` and
  `withMessage` wrappers of `github.com/pkg/errors`, and a pointer to an
  `xError` cell (`xref`).
* `*xError` values are pointers into a heap (`Heap`): a cell store
  `cells : Nat → XErrState` plus an allocation counter.  The methods
  mutate cells in place, exactly as the Go code does, so they take and
  return a heap.  Pointer equality (`re == xe` in the Go source) is
  equality of cell indices.
* Because the Go code can build cyclic traces (an `xError` whose `trace`
  references the `xError` itself), rendering and cause-descent are
  modelled with explicit fuel; `none` means the fuel ran out, and a
  result of `none` for every fuel witnesses non-termination of the Go
  code.
-/

namespace Xerrors

/-- The shapes a Go `error` interface value can have in this package:
a plain error (identified by its rendered text), the two wrappers of
`github.com/pkg/errors` (`withStack` records a stack snapshot, which we
abstract away; `withMessage` records a message layer), and a pointer to
an `xError` cell. -/
inductive Err : Type where
  | plain : String → Err
  | withStack : Err → Err
  | withMessage : Err → String → Err
  | xref : Nat → Err
deriving DecidableEq, Repr

/-- The fields of the Go struct `xError`: `trace error`, `code int`,
`message string`. -/
structure XErrState : Type where
  trace : Option Err
  code : Int
  message : String
deriving DecidableEq, Repr

/-- The zero value of `xError` (Go zero values: nil, 0, ""). -/
def XErrState.zero : XErrState := ⟨none, 0, ""⟩

/-- Heap of allocated `xError` cells; `next` is the next fresh address. -/
structure Heap : Type where
  cells : Nat → XErrState
  next : Nat

/-- The empty heap. -/
def Heap.empty : Heap := ⟨fun _ => XErrState.zero, 0⟩

/-- Dereference a `*xError` pointer. -/
def readCell (h : Heap) (id : Nat) : XErrState := h.cells id

/-- Assign `xe.trace = t` in place (the only field the Go code ever
mutates). -/
def setTrace (h : Heap) (id : Nat) (t : Option Err) : Heap :=
  { h with cells := fun j => if j = id then { h.cells id with trace := t } else h.cells j }

/-- Allocate a fresh `xError` cell (Go `&xError{...}`), returning the
new heap and the pointer. -/
def alloc (h : Heap) (st : XErrState) : Heap × Nat :=
  (⟨fun j => if j = h.next then st else h.cells j, h.next + 1⟩, h.next)

/-! ### The external `github.com/pkg/errors` primitive

Modelled from the spec's boundary contract (section 6: `CaptureWrap`,
`CaptureWithMessage`, `CaptureStack`, each returning nil on nil) and the
documented semantics of `github.com/pkg/errors`: `Wrap` attaches a
message layer and a stack snapshot, `WithMessage` only a message layer,
`WithStack` only a stack snapshot, and all three return nil when given
nil. -/

/-- `errors.Wrap(err, message)`: nil on nil, otherwise a stack snapshot
over a message layer. -/
def pkgWrap (e : Option Err) (msg : String) : Option Err :=
  match e with
  | none => none
  | some e => some (.withStack (.withMessage e msg))

/-- `errors.WithMessage(err, message)`: nil on nil, otherwise one
message layer, no stack snapshot. -/
def pkgWithMessage (e : Option Err) (msg : String) : Option Err :=
  match e with
  | none => none
  | some e => some (.withMessage e msg)

/-- `errors.WithStack(err)`: nil on nil, otherwise one stack snapshot. -/
def pkgWithStack (e : Option Err) : Option Err :=
  match e with
  | none => none
  | some e => some (.withStack e)

/-! ### Constructors (`Fail`, `Failf`) -/

/-- `Fail(code, message)`: allocate `&xError{trace: nil, code, message}`. -/
def pFail (h : Heap) (code : Int) (message : String) : Heap × Nat :=
  alloc h ⟨none, code, message⟩

/-- `Failf(code, format, args...)`: same as `Fail` with the message
produced by `fmt.Sprintf`; the `message` argument here stands for that
already-formatted string (`fmt.Sprintf` is Go library code external to
the package). -/
def pFailf (h : Heap) (code : Int) (message : String) : Heap × Nat :=
  alloc h ⟨none, code, message⟩

/-! ### Accessors -/

/-- `(*xError).Code()`. -/
def mCode (h : Heap) (xe : Nat) : Int := (readCell h xe).code

/-- `(*xError).Message()`. -/
def mMessage (h : Heap) (xe : Nat) : String := (readCell h xe).message

/-- `(*xError).GetError()`: the raw `trace` field. -/
def mGetError (h : Heap) (xe : Nat) : Option Err := (readCell h xe).trace

/-! ### Methods `WithStack`, `Wrap`, `Wrapf` on `*xError`

Each returns the mutated heap together with the returned pointer. -/

/-- `(*xError).WithStack(err)`: first `xe.trace = errors.WithStack(err)`;
then, if `err` is an `XError re`, either return `re` when `re == xe`
(the trace was already reassigned at that point), or fold
`"<Error code>: message"` of `re` over the fresh trace and return `xe`. -/
def mWithStack (h : Heap) (xe : Nat) (err : Option Err) : Heap × Nat :=
  let h1 := setTrace h xe (pkgWithStack err)
  match err with
  | some (.xref re) =>
    if re = xe then (h1, re)
    else
      let rawMessage := "<Error " ++ toString (readCell h1 re).code ++ ">: "
        ++ (readCell h1 re).message
      if rawMessage.length ≠ 0 then
        (setTrace h1 xe (pkgWithMessage (readCell h1 xe).trace rawMessage), xe)
      else (h1, xe)
  | _ => (h1, xe)

/-- `(*xError).Wrap(err, errString)`: when `err` is an `XError re`,
`newTrace` is `re.GetError()` if `re == xe`, otherwise the `XError`
returned by `xe.WithStack(re.GetError())` (the receiver itself, viewed
as an error value); then `xe.trace = errors.WithMessage(newTrace,
errString)`.  Otherwise `xe.trace = errors.Wrap(err, errString)`.
Returns `xe`. -/
def mWrap (h : Heap) (xe : Nat) (err : Option Err) (errString : String) : Heap × Nat :=
  match err with
  | some (.xref re) =>
    if re = xe then
      (setTrace h xe (pkgWithMessage (readCell h re).trace errString), xe)
    else
      let res := mWithStack h xe (readCell h re).trace
      (setTrace res.1 xe (pkgWithMessage (some (.xref res.2)) errString), xe)
  | _ => (setTrace h xe (pkgWrap err errString), xe)

/-- `(*xError).Wrapf(err, errString, args...)`: identical to `Wrap`
with the message produced by `fmt.Sprintf`; the `errString` argument
here stands for that already-formatted string. -/
def mWrapf (h : Heap) (xe : Nat) (err : Option Err) (errString : String) : Heap × Nat :=
  match err with
  | some (.xref re) =>
    if re = xe then
      (setTrace h xe (pkgWithMessage (readCell h re).trace errString), xe)
    else
      let res := mWithStack h xe (readCell h re).trace
      (setTrace res.1 xe (pkgWithMessage (some (.xref res.2)) errString), xe)
  | _ => (setTrace h xe (pkgWrap err errString), xe)

/-! ### Package-level functions `Wrap`, `Wrapf`, `WithStack`

They return `Heap × Option Nat`: the possibly-nil returned `XError`. -/

/-- Package-level `Wrap(err, errString)`: nil on nil; when `err` is
already an `XError re`, delegate to `re.Wrap(err, errString)` (no new
struct); otherwise allocate `&xError{trace: errors.Wrap(err, errString)}`. -/
def pWrap (h : Heap) (err : Option Err) (errString : String) : Heap × Option Nat :=
  match err with
  | none => (h, none)
  | some (.xref re) =>
    let r := mWrap h re (some (.xref re)) errString
    (r.1, some r.2)
  | some e =>
    let r := alloc h ⟨pkgWrap (some e) errString, 0, ""⟩
    (r.1, some r.2)

/-- Package-level `Wrapf`; the `errString` argument stands for the
`fmt.Sprintf`-formatted message. -/
def pWrapf (h : Heap) (err : Option Err) (errString : String) : Heap × Option Nat :=
  match err with
  | none => (h, none)
  | some (.xref re) =>
    let r := mWrapf h re (some (.xref re)) errString
    (r.1, some r.2)
  | some e =>
    let r := alloc h ⟨pkgWrap (some e) errString, 0, ""⟩
    (r.1, some r.2)

/-- Package-level `WithStack(err)`: nil on nil; when `err` is already an
`XError re`, delegate to `re.WithStack(err)`; otherwise allocate
`&xError{trace: errors.WithStack(err)}`. -/
def pWithStack (h : Heap) (err : Option Err) : Heap × Option Nat :=
  match err with
  | none => (h, none)
  | some (.xref re) =>
    let r := mWithStack h re (some (.xref re))
    (r.1, some r.2)
  | some e =>
    let r := alloc h ⟨pkgWithStack (some e), 0, ""⟩
    (r.1, some r.2)

/-! ### Rendering

`Error()` on the pkg/errors wrappers: `withMessage.Error() = msg ++ ": "
++ cause.Error()`, `withStack.Error() = inner.Error()`, and
`(*xError).Error()` returns `""` when `trace` is nil and `trace.Error()`
otherwise.  Cyclic traces make this non-terminating, so the model takes
fuel; `none` means the fuel ran out. -/

/-- `Error()` text of an error value, with fuel. -/
def errText (h : Heap) : Nat → Err → Option String
  | 0, _ => none
  | _ + 1, .plain s => some s
  | fuel + 1, .withStack e => errText h fuel e
  | fuel + 1, .withMessage e msg => (errText h fuel e).map (fun s => msg ++ ": " ++ s)
  | fuel + 1, .xref id =>
    match (readCell h id).trace with
    | none => some ""
    | some t => errText h fuel t

/-- `(*xError).Error()`, with fuel. -/
def mError (h : Heap) (fuel : Nat) (xe : Nat) : Option String :=
  match (readCell h xe).trace with
  | none => some ""
  | some t => errText h fuel t

/-- Extended (`%+v`) rendering, with fuel.  `(*xError).Format` with verb
`v` and the `+` flag prints `fmt.Fprintf(s, "%+v\n", xe.trace)`; on the
pkg/errors wrappers `%+v` prints the cause's verbose form followed by
the stack frames (`withStack`) or the message (`withMessage`); a nil
trace prints as `<nil>`.  The stack-frame text is abstracted as the
fixed marker `"[stack]"`. -/
def extText (h : Heap) : Nat → Err → Option String
  | 0, _ => none
  | _ + 1, .plain s => some s
  | fuel + 1, .withStack e => (extText h fuel e).map (fun s => s ++ "\n" ++ "[stack]")
  | fuel + 1, .withMessage e msg => (extText h fuel e).map (fun s => s ++ "\n" ++ msg)
  | fuel + 1, .xref id =>
    match (readCell h id).trace with
    | none => some ("<nil>" ++ "\n")
    | some t => (extText h fuel t).map (fun s => s ++ "\n")

/-! ### Cause descent

`(*xError).Cause()` returns `xe.trace` when the trace does not expose a
`Cause()` capability (plain errors, nil), and `trace.Cause()` otherwise;
both pkg/errors wrappers expose `Cause()` returning their inner error,
and `*xError` exposes the method above.  The package-level `Cause(err)`
loops, replacing `err` by `err.Cause()` while `err` is non-nil and
exposes the capability. -/

/-- `(*xError).Cause()`, with fuel (the trace of one cell can point at
another cell, or back at the same cell).  `none` means the fuel ran
out; `some r` is the returned error value. -/
def mCause (h : Heap) : Nat → Nat → Option (Option Err)
  | 0, _ => none
  | fuel + 1, id =>
    match (readCell h id).trace with
    | none => some none
    | some (.plain s) => some (some (.plain s))
    | some (.withStack e) => some (some e)
    | some (.withMessage e _) => some (some e)
    | some (.xref id2) => mCause h fuel id2

/-- Package-level `Cause(err)`, with fuel.  `none` means the fuel ran
out; `some r` is the returned error value. -/
def pCause (h : Heap) : Nat → Option Err → Option (Option Err)
  | 0, _ => none
  | _ + 1, none => some none
  | _ + 1, some (.plain s) => some (some (.plain s))
  | fuel + 1, some (.withStack e) => pCause h fuel (some e)
  | fuel + 1, some (.withMessage e _) => pCause h fuel (some e)
  | fuel + 1, some (.xref id) =>
    match mCause h (fuel + 1) id with
    | none => none
    | some r => pCause h fuel r

/-- Conversion of a returned `XError` interface value back to a Go
`error` interface value (the chain `WithStack(WithStack(...))` feeds one
call's result to the next). -/
def xerrToErr : Option Nat → Option Err
  | none => none
  | some id => some (.xref id)

/-- `e` contains no pointer to an `xError` cell anywhere: the shapes a
genuinely plain (never-classified) Go error can have. -/
def noXref : Err → Bool
  | .plain _ => true
  | .withStack e => noXref e
  | .withMessage e _ => noXref e
  | .xref _ => false

/-! ### Helper lemmas -/

lemma mCode_setTrace (h : Heap) (i : Nat) (t : Option Err) (j : Nat) :
    mCode (setTrace h i t) j = mCode h j := by
  by_cases hj : j = i <;> simp [mCode, readCell, setTrace, hj]

lemma mMessage_setTrace (h : Heap) (i : Nat) (t : Option Err) (j : Nat) :
    mMessage (setTrace h i t) j = mMessage h j := by
  by_cases hj : j = i <;> simp [mMessage, readCell, setTrace, hj]

lemma mGetError_setTrace_self (h : Heap) (i : Nat) (t : Option Err) :
    mGetError (setTrace h i t) i = t := by
  simp [mGetError, readCell, setTrace]

lemma mCode_mWithStack_xref (h : Heap) (xe re j : Nat) :
    mCode (mWithStack h xe (some (.xref re))).1 j = mCode h j := by
  simp only [mWithStack]
  split
  · simp [mCode_setTrace]
  · split <;> simp [mCode_setTrace]

lemma mMessage_mWithStack_xref (h : Heap) (xe re j : Nat) :
    mMessage (mWithStack h xe (some (.xref re))).1 j = mMessage h j := by
  simp only [mWithStack]
  split
  · simp [mMessage_setTrace]
  · split <;> simp [mMessage_setTrace]

lemma mCode_mWithStack (h : Heap) (xe : Nat) (err : Option Err) (j : Nat) :
    mCode (mWithStack h xe err).1 j = mCode h j := by
  rcases err with _ | e
  · simp [mWithStack, mCode_setTrace]
  · cases e
    · simp [mWithStack, mCode_setTrace]
    · simp [mWithStack, mCode_setTrace]
    · simp [mWithStack, mCode_setTrace]
    · apply mCode_mWithStack_xref

lemma mMessage_mWithStack (h : Heap) (xe : Nat) (err : Option Err) (j : Nat) :
    mMessage (mWithStack h xe err).1 j = mMessage h j := by
  rcases err with _ | e
  · simp [mWithStack, mMessage_setTrace]
  · cases e
    · simp [mWithStack, mMessage_setTrace]
    · simp [mWithStack, mMessage_setTrace]
    · simp [mWithStack, mMessage_setTrace]
    · apply mMessage_mWithStack_xref

lemma mCode_mWrap (h : Heap) (xe : Nat) (err : Option Err) (s : String) (j : Nat) :
    mCode (mWrap h xe err s).1 j = mCode h j := by
  rcases err with _ | e
  · simp [mWrap, mCode_setTrace]
  · cases e
    · simp [mWrap, mCode_setTrace]
    · simp [mWrap, mCode_setTrace]
    · simp [mWrap, mCode_setTrace]
    · simp only [mWrap]
      split
      · simp [mCode_setTrace]
      · simp [mCode_setTrace, mCode_mWithStack]

lemma mMessage_mWrap (h : Heap) (xe : Nat) (err : Option Err) (s : String) (j : Nat) :
    mMessage (mWrap h xe err s).1 j = mMessage h j := by
  rcases err with _ | e
  · simp [mWrap, mMessage_setTrace]
  · cases e
    · simp [mWrap, mMessage_setTrace]
    · simp [mWrap, mMessage_setTrace]
    · simp [mWrap, mMessage_setTrace]
    · simp only [mWrap]
      split
      · simp [mMessage_setTrace]
      · simp [mMessage_setTrace, mMessage_mWithStack]

lemma mCode_mWrapf (h : Heap) (xe : Nat) (err : Option Err) (s : String) (j : Nat) :
    mCode (mWrapf h xe err s).1 j = mCode h j := by
  rcases err with _ | e
  · simp [mWrapf, mCode_setTrace]
  · cases e
    · simp [mWrapf, mCode_setTrace]
    · simp [mWrapf, mCode_setTrace]
    · simp [mWrapf, mCode_setTrace]
    · simp only [mWrapf]
      split
      · simp [mCode_setTrace]
      · simp [mCode_setTrace, mCode_mWithStack]

lemma mMessage_mWrapf (h : Heap) (xe : Nat) (err : Option Err) (s : String) (j : Nat) :
    mMessage (mWrapf h xe err s).1 j = mMessage h j := by
  rcases err with _ | e
  · simp [mWrapf, mMessage_setTrace]
  · cases e
    · simp [mWrapf, mMessage_setTrace]
    · simp [mWrapf, mMessage_setTrace]
    · simp [mWrapf, mMessage_setTrace]
    · simp only [mWrapf]
      split
      · simp [mMessage_setTrace]
      · simp [mMessage_setTrace, mMessage_mWithStack]

lemma errText_noXref (e : Err) (hnx : noXref e = true) :
    ∀ (fuel : Nat) (h h2 : Heap), errText h fuel e = errText h2 fuel e := by
  induction e with
  | plain s => intro fuel h h2; cases fuel <;> rfl
  | withStack e ih =>
    intro fuel h h2
    cases fuel with
    | zero => rfl
    | succ k => exact ih (by simpa [noXref] using hnx) k h h2
  | withMessage e msg ih =>
    intro fuel h h2
    cases fuel with
    | zero => rfl
    | succ k =>
      have hi := ih (by simpa [noXref] using hnx) k h h2
      simp only [errText, hi]
  | xref id => simp [noXref] at hnx

lemma pWrap_not_xref (h : Heap) (e : Err) (m : String) (hnx : noXref e = true) :
    pWrap h (some e) m
      = ((alloc h ⟨pkgWrap (some e) m, 0, ""⟩).1, some (alloc h ⟨pkgWrap (some e) m, 0, ""⟩).2) := by
  cases e with
  | plain s => rfl
  | withStack e0 => rfl
  | withMessage e0 msg0 => rfl
  | xref id => simp [noXref] at hnx

/-! ### Concrete scenarios -/

/-- Scenario for C1: `a := Fail(404, "not found")`. -/
def c1A : Heap × Nat := pFail Heap.empty 404 "not found"

/-- Scenario for C1: `b := Fail(500, "boom")`. -/
def c1B : Heap × Nat := pFail c1A.1 500 "boom"

/-- Scenario for C1: `b.Wrap(a, "context")`. -/
def c1Wrap : Heap × Nat := mWrap c1B.1 c1B.2 (some (.xref c1A.2)) "context"

/-- Scenario for C2: `x := Fail(1, "a")` followed by
`x.Wrap(plain "boom", "p")`, giving `x` a non-nil trace. -/
def c2Base : Heap × Nat :=
  mWrap (pFail Heap.empty 1 "a").1 (pFail Heap.empty 1 "a").2 (some (.plain "boom")) "p"

/-- Scenario for C2: first `x.Wrap(x, "m")`. -/
def c2Once : Heap × Nat := mWrap c2Base.1 c2Base.2 (some (.xref c2Base.2)) "m"

/-- Scenario for C2: second `x.Wrap(x, "m")`, immediately after. -/
def c2Twice : Heap × Nat := mWrap c2Once.1 c2Once.2 (some (.xref c2Once.2)) "m"

/-- Scenario for C3: `x := Fail(1, "a")`. -/
def c3Fail : Heap × Nat := pFail Heap.empty 1 "a"

/-- Scenario for C3: `x.WithStack(x)`. -/
def c3WS : Heap × Nat := mWithStack c3Fail.1 c3Fail.2 (some (.xref c3Fail.2))

/-- Scenario for C4: `WithStack(rootErr)` with `rootErr` the plain error
`"boom"`. -/
def c4S1 : Heap × Option Nat := pWithStack Heap.empty (some (.plain "boom"))

/-- Scenario for C4: `WithStack(WithStack(rootErr))`. -/
def c4S2 : Heap × Option Nat := pWithStack c4S1.1 (xerrToErr c4S1.2)

/-- Scenario for C4: `WithStack(WithStack(WithStack(rootErr)))`. -/
def c4S3 : Heap × Option Nat := pWithStack c4S2.1 (xerrToErr c4S2.2)

/-- Scenario for C8: `Wrap(Wrap(plainErr, "inner"), "outer")` with
`plainErr` the plain error with text `p`. -/
def c8 (p : String) : Heap × Option Nat :=
  pWrap (pWrap Heap.empty (some (.plain p)) "inner").1
    (xerrToErr (pWrap Heap.empty (some (.plain p)) "inner").2) "outer"

/-- After `b.Wrap(a, "context")` in the C1 scenario, `b`'s trace is the
self-referential value `withMessage (xref b) "context"`, so both the
plain and the extended rendering run out of any amount of fuel. -/
lemma c1_rendering_diverges : ∀ n,
    extText c1Wrap.1 n (.xref c1Wrap.2) = none ∧
    extText c1Wrap.1 n (.withMessage (.xref c1Wrap.2) "context") = none ∧
    errText c1Wrap.1 n (.xref c1Wrap.2) = none ∧
    errText c1Wrap.1 n (.withMessage (.xref c1Wrap.2) "context") = none := by
  intro n
  induction n with
  | zero => exact ⟨rfl, rfl, rfl, rfl⟩
  | succ k ih =>
    have ht : (readCell c1Wrap.1 c1Wrap.2).trace
        = some (.withMessage (.xref c1Wrap.2) "context") := by decide
    refine ⟨?_, ?_, ?_, ?_⟩
    · simp only [extText, ht, ih.2.1]; rfl
    · simp only [extText, ih.1]; rfl
    · simp only [errText, ht, ih.2.2.2]
    · simp only [errText, ih.2.2.1]; rfl

/-- In the C4 scenario the chain collapses onto a single cell whose
trace is `withStack` of the cell itself, so the package-level `Cause`
loop never terminates: it runs out of any amount of fuel. -/
lemma c4_cause_diverges : ∀ n, pCause c4S3.1 n (xerrToErr c4S3.2) = none := by
  intro n
  induction n with
  | zero => rfl
  | succ k ih => exact ih

/-! ### Claim theorems -/

/-- C5.  Nil propagation at the package level: `Wrap(nil, m)` and
`WithStack(nil)` both return nil, and the heap is unchanged (no new
Classified Error value is constructed). -/
theorem package_nil_propagation (h : Heap) (m : String) :
    pWrap h none m = (h, none) ∧ pWithStack h none = (h, none) :=
  ⟨rfl, rfl⟩

/-- C9.  A freshly classified error `Fail(404, "not found")` renders as
`""` at every fuel (its trace is nil), and `Code()`/`Message()` return
`404`/`"not found"`. -/
theorem fail_fresh_rendering :
    mCode (pFail Heap.empty 404 "not found").1 (pFail Heap.empty 404 "not found").2 = 404 ∧
    mMessage (pFail Heap.empty 404 "not found").1 (pFail Heap.empty 404 "not found").2
      = "not found" ∧
    mGetError (pFail Heap.empty 404 "not found").1 (pFail Heap.empty 404 "not found").2 = none ∧
    ∀ fuel, mError (pFail Heap.empty 404 "not found").1 fuel
      (pFail Heap.empty 404 "not found").2 = some "" :=
  ⟨rfl, rfl, rfl, fun _ => rfl⟩

/-- C10.  The interface methods do not propagate nil: for every
classified receiver `xe` and message `m`, `xe.Wrap(nil, m)`,
`xe.Wrapf(nil, m)` and `xe.WithStack(nil)` each return the receiver
itself (never nil), with its trace set to the nil result of delegating
nil to the `github.com/pkg/errors` primitive. -/
theorem method_nil_returns_receiver (h : Heap) (xe : Nat) (m : String) :
    (mWrap h xe none m).2 = xe ∧ mGetError (mWrap h xe none m).1 xe = none ∧
    (mWrapf h xe none m).2 = xe ∧ mGetError (mWrapf h xe none m).1 xe = none ∧
    (mWithStack h xe none).2 = xe ∧ mGetError (mWithStack h xe none).1 xe = none := by
  refine ⟨rfl, ?_, rfl, ?_, rfl, ?_⟩ <;>
    simp [mWrap, mWrapf, mWithStack, pkgWrap, pkgWithStack, mGetError_setTrace_self]

/-- C1.  Wrapping a different classified error does NOT preserve the
inner classification in the rendered trace: with `a = Fail(404, "not
found")` and `b = Fail(500, "boom")`, after `b.Wrap(a, "context")` the
method returns `b` and `b.Code()`/`b.Message()` are still `500`/`"boom"`,
but `b`'s trace is the self-referential value `errors.WithMessage(b,
"context")` (the `WithStack` call was given `a.GetError()`, not `a`, so
the `"<Error 404>: not found"` debug string is never attached), and both
the extended (`%+v`) rendering and `Error()` fail to produce any text at
every fuel: the Go rendering recurses forever. -/
theorem wrap_nested_classified_diverges :
    c1Wrap.2 = c1B.2 ∧
    mCode c1Wrap.1 c1Wrap.2 = 500 ∧ mMessage c1Wrap.1 c1Wrap.2 = "boom" ∧
    mGetError c1Wrap.1 c1Wrap.2 = some (.withMessage (.xref c1Wrap.2) "context") ∧
    (∀ fuel, extText c1Wrap.1 fuel (.xref c1Wrap.2) = none) ∧
    (∀ fuel, mError c1Wrap.1 fuel c1Wrap.2 = none) := by
  refine ⟨by decide, by decide, by decide, by decide, fun fuel => (c1_rendering_diverges fuel).1,
    fun fuel => ?_⟩
  have ht : (readCell c1Wrap.1 c1Wrap.2).trace
      = some (.withMessage (.xref c1Wrap.2) "context") := by decide
  simp only [mError, ht]
  exact (c1_rendering_diverges fuel).2.2.2

/-- C2 counterexample.  Self-wrap is not idempotent on trace content:
for `x = Fail(1, "a")` with trace populated by `x.Wrap(plain "boom",
"p")`, the trace after `x.Wrap(x, "m")` differs from the trace after
calling `x.Wrap(x, "m")` a second time immediately after (the second
call stacks one more `withMessage "m"` layer). -/
theorem selfwrap_not_idempotent_cex :
    ¬ mGetError c2Twice.1 c2Twice.2 = mGetError c2Once.1 c2Once.2 := by decide

/-- C2 amended.  Repeated self-wraps accumulate no stack snapshots, but
each one adds one message-only layer: `x.Wrap(x, m)` returns `x` and
sets the trace to exactly `errors.WithMessage(oldTrace, m)` (a nil
trace stays nil), so the trace content is unchanged only when the trace
was nil. -/
theorem selfwrap_message_only_layer (h : Heap) (xe : Nat) (m : String) :
    (mWrap h xe (some (.xref xe)) m).2 = xe ∧
    mGetError (mWrap h xe (some (.xref xe)) m).1 xe = pkgWithMessage (mGetError h xe) m := by
  constructor
  · simp [mWrap]
  · simp [mWrap, mGetError, readCell, setTrace]

/-- C3.  `re.WithStack(re)` is not a no-op on the trace: for
`x = Fail(1, "a")` (trace nil), `x.WithStack(x)` returns `x` but first
assigns `x.trace = errors.WithStack(x)`, a freshly captured stack
snapshot wrapping `x` itself, so the trace changes from nil to
`withStack (xref x)`. -/
theorem withStack_self_mutates_trace :
    mGetError c3Fail.1 c3Fail.2 = none ∧
    c3WS.2 = c3Fail.2 ∧
    mGetError c3WS.1 c3Fail.2 = some (.withStack (.xref c3Fail.2)) := by decide

/-- C4.  For the chain `WithStack(WithStack(WithStack(rootErr)))` built
from the plain error `"boom"`, every call returns the same cell, whose
trace ends up as `withStack` of the cell itself, and the package-level
`Cause` loop never terminates (it runs out of any amount of fuel), so
it never returns a value rendering like `rootErr`. -/
theorem cause_withstack_chain_diverges :
    c4S1.2 = some 0 ∧ c4S2.2 = some 0 ∧ c4S3.2 = some 0 ∧
    mGetError c4S3.1 0 = some (.withStack (.xref 0)) ∧
    ∀ fuel, pCause c4S3.1 fuel (xerrToErr c4S3.2) = none :=
  ⟨by decide, by decide, by decide, by decide, c4_cause_diverges⟩

/-- C7.  Wrapping a non-nil plain (never-classified) error annotates and
captures a trace: for any plain error `e` whose `Error()` text is `t`,
`Wrap(e, m)` allocates a classified error whose `GetError()` is the
non-nil `errors.Wrap` result and whose `Error()` text is
`m ++ ": " ++ t`, which contains `m` as a substring. -/
theorem wrap_plain_annotates (h : Heap) (e : Err) (m t : String) (fuel : Nat)
    (hnx : noXref e = true) (hren : errText Heap.empty fuel e = some t) :
    (pWrap h (some e) m).2 = some h.next ∧
    mGetError (pWrap h (some e) m).1 h.next = some (.withStack (.withMessage e m)) ∧
    mError (pWrap h (some e) m).1 (fuel + 2) h.next = some (m ++ ": " ++ t) ∧
    ∃ a b, m ++ ": " ++ t = a ++ m ++ b := by
  rw [pWrap_not_xref h e m hnx]
  refine ⟨rfl, ?_, ?_, "", ": " ++ t, String.append_assoc m ": " t⟩
  · simp [alloc, mGetError, readCell, pkgWrap]
  · simp only [alloc, mError, readCell, if_pos]
    have hw : pkgWrap (some e) m = some (.withStack (.withMessage e m)) := rfl
    simp only [hw, errText]
    rw [errText_noXref e hnx fuel _ Heap.empty, hren]
    rfl

/-- C7 witness: the theorem applied at `e = plain "boom"`, `m = "ctx"`,
`t = "boom"`, `fuel = 1`, on the empty heap. -/
theorem wrap_plain_annotates_witness :
    noXref (.plain "boom") = true ∧
    errText Heap.empty 1 (.plain "boom") = some "boom" ∧
    ((pWrap Heap.empty (some (.plain "boom")) "ctx").2 = some Heap.empty.next ∧
      mGetError (pWrap Heap.empty (some (.plain "boom")) "ctx").1 Heap.empty.next
        = some (.withStack (.withMessage (.plain "boom") "ctx")) ∧
      mError (pWrap Heap.empty (some (.plain "boom")) "ctx").1 3 Heap.empty.next
        = some ("ctx" ++ ": " ++ "boom") ∧
      ∃ a b, "ctx" ++ ": " ++ "boom" = a ++ "ctx" ++ b) :=
  ⟨rfl, rfl, wrap_plain_annotates Heap.empty (.plain "boom") "ctx" "boom" 1 rfl rfl⟩

/-- C8.  `Wrap(Wrap(plainErr, "inner"), "outer").Error()` is
`"outer: inner: " ++ p` (with `p` the plain error's text): it contains
both `"inner"` and `"outer"` as substrings, and `"outer"` is the
outermost annotation (the rendered text starts with it). -/
theorem wrap_wrap_ordering (p : String) :
    (c8 p).2 = some 0 ∧
    mError (c8 p).1 4 0 = some ("outer: " ++ ("inner: " ++ p)) ∧
    (∃ a b, "outer: " ++ ("inner: " ++ p) = a ++ "inner" ++ b) ∧
    (∃ b, "outer: " ++ ("inner: " ++ p) = "outer" ++ b) :=
  ⟨rfl, rfl, ⟨"outer: ", ": " ++ p, rfl⟩, ⟨": " ++ ("inner: " ++ p), rfl⟩⟩

/-- C6.  Classification is write-once: a call to the `Wrap`, `Wrapf` or
`WithStack` method, with any argument, leaves the `code` and `message`
fields of every allocated `xError` cell unchanged (only `trace` is ever
assigned), so `Code()` and `Message()` always return the values set at
construction by `Fail`/`Failf`. -/
theorem classification_write_once (h : Heap) (xe j : Nat) (err : Option Err) (s : String) :
    mCode (mWrap h xe err s).1 j = mCode h j ∧
    mMessage (mWrap h xe err s).1 j = mMessage h j ∧
    mCode (mWrapf h xe err s).1 j = mCode h j ∧
    mMessage (mWrapf h xe err s).1 j = mMessage h j ∧
    mCode (mWithStack h xe err).1 j = mCode h j ∧
    mMessage (mWithStack h xe err).1 j = mMessage h j :=
  ⟨mCode_mWrap h xe err s j, mMessage_mWrap h xe err s j,
   mCode_mWrapf h xe err s j, mMessage_mWrapf h xe err s j,
   mCode_mWithStack h xe err j, mMessage_mWithStack h xe err j⟩

end Xerrors
